import Mathlib

/-!
Verification of the table/formula reconciliation pipeline of
`pdf-document-layout-analysis-fork` against its specification.

The Python sources are shallowly embedded:
* Python `str` values become `List Char`; `str.strip`, `str.replace`,
  `in`, `str.startswith`, slicing and `str.split("\n", 1)` are modelled
  by executable functions below with CPython semantics.
* `int()` applied to a non-negative real is truncation toward zero;
  floats are modelled by exact rationals (`ℚ`), so `int(x)` is `Int.tdiv`
  of the numerator by the denominator.
* the OCR backend is abstracted as an oracle (a function from the attempt
  number to the returned string), exceptions become `Except`, and the
  mutable PIL images become an explicit store of image values addressed
  by references.
-/

/-! ## Python string primitives (on `List Char`) -/

/-- CPython `str.isspace` on the ASCII whitespace characters relevant to
`str.strip` (space, tab, newline, carriage return, vertical tab, form feed). -/
def pyIsSpace (c : Char) : Bool :=
  c == ' ' || c == '\t' || c == '\n' || c == '\r' || c == '\x0b' || c == '\x0c'

/-- Python `str.lstrip()`. -/
def pyLstrip (l : List Char) : List Char := l.dropWhile pyIsSpace

/-- Python `str.rstrip()`. -/
def pyRstrip (l : List Char) : List Char := (l.reverse.dropWhile pyIsSpace).reverse

/-- Python `str.strip()`. -/
def pyStrip (l : List Char) : List Char := pyRstrip (pyLstrip l)

/-- `needle.isPrefixOf haystack`, i.e. Python `haystack.startswith(needle)`. -/
def listStartsWith : List Char → List Char → Bool
  | [], _ => true
  | _ :: _, [] => false
  | a :: as, b :: bs => a == b && listStartsWith as bs

/-- Python `haystack.endswith(needle)`. -/
def listEndsWith (n h : List Char) : Bool := listStartsWith n.reverse h.reverse

/-- Python `needle in haystack` (substring containment). -/
def occursSub (n : List Char) : List Char → Bool
  | [] => listStartsWith n []
  | c :: t => listStartsWith n (c :: t) || occursSub n t

/-- Fuel-driven body of `replaceAll`; the fuel is an upper bound on the
haystack length, so with fuel `h.length` it is never exhausted. -/
def replaceAllAux (n r : List Char) : ℕ → List Char → List Char
  | 0, l => l
  | _ + 1, [] => []
  | fuel + 1, c :: t =>
    if n ≠ [] ∧ listStartsWith n (c :: t) = true then
      r ++ replaceAllAux n r fuel ((c :: t).drop n.length)
    else
      c :: replaceAllAux n r fuel t

/-- Python `haystack.replace(needle, repl)` for a non-empty needle:
non-overlapping occurrences are replaced left to right.  (For an empty
needle the haystack is returned unchanged; all needles in the sources are
non-empty marker strings or `"\n"`.) -/
def replaceAll (n r h : List Char) : List Char := replaceAllAux n r h.length h

/-- Python `text.split("\n", 1)`: `some` of everything after the first
newline when one exists, `none` otherwise. -/
def splitAfterNewline : List Char → Option (List Char)
  | [] => none
  | c :: t => if c = '\n' then some t else splitAfterNewline t

/-! ## Geometry mapper (`convert_table_to_html.py`, point→pixel conversion) -/

/-- Python `int()` on a rational: truncation toward zero. -/
def pyInt (q : ℚ) : ℤ := q.num.tdiv q.den

/-- `int(value_in_points * dpi / 72)`, as applied independently to each
bounding-box edge in `extract_table_format` and `_draw_formula_placeholder`. -/
def toPixels (v : ℚ) (dpi : ℕ) : ℤ := pyInt (v * (dpi : ℚ) / 72)

/-! ## `_strip_code_fences` and the `ocr_table_html` post-processing
(`vllm_openai_client.py`) -/

/-- The text of a triple-backtick fence. -/
def fenceChars : List Char := "```".toList

/-- `_strip_code_fences` from `vllm_openai_client.py`: strip, drop a leading
fence line, drop a trailing fence, delete every remaining newline, strip. -/
def stripCodeFences (text : List Char) : List Char :=
  let t0 := pyStrip text
  let t1 :=
    if listStartsWith fenceChars t0 then
      let t2 := (splitAfterNewline t0).getD []
      if listEndsWith fenceChars (pyRstrip t2) then
        (pyRstrip t2).take ((pyRstrip t2).length - 3)
      else t2
    else t0
  pyStrip (t1.filter (fun c => c ≠ '\n'))

/-- The value `ocr_table_html` returns, as a function of the chat-completion
response content (`None` becomes `""`, then `_strip_code_fences` is applied). -/
def ocrTableHtmlPost (content : Option (List Char)) : List Char :=
  stripCodeFences (content.getD [])

/-! helper lemmas about the string primitives -/

lemma mem_pyRstrip {c : Char} {l : List Char} (h : c ∈ pyRstrip l) : c ∈ l := by
  unfold pyRstrip at h
  rw [List.mem_reverse] at h
  exact List.mem_reverse.mp ((List.dropWhile_sublist _).mem h)

lemma mem_pyStrip {c : Char} {l : List Char} (h : c ∈ pyStrip l) : c ∈ l := by
  unfold pyStrip pyLstrip at h
  exact (List.dropWhile_sublist _).mem (mem_pyRstrip h)

lemma pyInt_eq_floor {q : ℚ} (hq : 0 ≤ q) : pyInt q = ⌊q⌋ := by
  unfold pyInt
  rw [Rat.floor_def]
  exact Int.tdiv_eq_ediv (Rat.num_nonneg.mpr hq) (Int.ofNat_nonneg _)

lemma pyInt_intCast (n : ℤ) : pyInt ((n : ℚ)) = n := by
  unfold pyInt
  rw [Rat.num_intCast, Rat.den_intCast]
  exact Int.tdiv_one n

/-! ## Marker substitution (`extract_table_format`, lines 184–202) -/

/-- Python `str.lower()` (the markers are ASCII). -/
def lowerList (l : List Char) : List Char := l.map Char.toLower

/-- The six variants tried for one marker, in source order:
exact, `_`→space, `_` removed, and the lower-cased forms. -/
def markerVariants (marker : List Char) : List (List Char) :=
  [marker,
   replaceAll ['_'] [' '] marker,
   replaceAll ['_'] [] marker,
   lowerList marker,
   lowerList (replaceAll ['_'] [' '] marker),
   lowerList (replaceAll ['_'] [] marker)]

/-- One iteration of the inner `for v in variants` loop:
`if v in html: html = html.replace(v, latex)` (note: no `break`). -/
def substMarkerStep (latex h v : List Char) : List Char :=
  if occursSub v h then replaceAll v latex h else h

/-- The whole `for v in variants` loop for one marker. -/
def substMarker (marker latex html : List Char) : List Char :=
  (markerVariants marker).foldl (substMarkerStep latex) html

/-- The outer substitution loop over the marker-to-formula binding
(lines 186–202): skip markers whose formula text strips to empty. -/
def reconcileMarkers (bindings : List (List Char × Option (List Char)))
    (html : List Char) : List Char :=
  bindings.foldl
    (fun h p =>
      let latex := pyStrip (p.2.getD [])
      if latex = [] then h else substMarker p.1 latex h)
    html

/-- The substitution as the specification words it (for comparison only):
substitute only the first variant that occurs in the HTML and leave the
later variants untouched. -/
def substMarkerFirstOnly (marker latex html : List Char) : List Char :=
  match (markerVariants marker).find? (fun v => occursSub v html) with
  | some v => replaceAll v latex html
  | none => html

lemma foldl_substMarkerStep_of_not_occurs (latex : List Char) :
    ∀ (l : List (List Char)) (h : List Char),
      (∀ w ∈ l, occursSub w h = false) →
      l.foldl (substMarkerStep latex) h = h := by
  intro l
  induction l with
  | nil => intro h _; rfl
  | cons w t ih =>
    intro h hall
    have hw : occursSub w h = false := hall w (by simp)
    simp only [List.foldl_cons, substMarkerStep, hw, Bool.false_eq_true, if_false]
    exact ih h (fun u hu => hall u (List.mem_cons_of_mem _ hu))

lemma foldl_substMarkerStep_single (latex v : List Char) :
    ∀ (l : List (List Char)) (h : List Char),
      v ∈ l →
      occursSub v h = true →
      (∀ w ∈ l, w ≠ v → occursSub w h = false) →
      (∀ w ∈ l, occursSub w (replaceAll v latex h) = false) →
      l.foldl (substMarkerStep latex) h = replaceAll v latex h := by
  intro l
  induction l with
  | nil => intro h hv; cases hv
  | cons w t ih =>
    intro h hv hocc hbef haft
    by_cases hw : w = v
    · subst hw
      simp only [List.foldl_cons, substMarkerStep, hocc, if_true]
      exact foldl_substMarkerStep_of_not_occurs latex t _
        (fun u hu => haft u (List.mem_cons_of_mem _ hu))
    · have hwf : occursSub w h = false := hbef w (by simp) hw
      simp only [List.foldl_cons, substMarkerStep, hwf, Bool.false_eq_true, if_false]
      have hv' : v ∈ t := by
        rcases List.mem_cons.mp hv with h1 | h1
        · exact absurd h1.symm hw
        · exact h1
      exact ih h hv' hocc
        (fun u hu => hbef u (List.mem_cons_of_mem _ hu))
        (fun u hu => haft u (List.mem_cons_of_mem _ hu))

/-- C1 (counterexample): on HTML that contains both the exact marker and the
lower-case underscore-free variant, the code replaces both variants, while the
claim predicts only the first found variant is substituted. -/
theorem c1_counterexample :
    substMarker "FORMULA_001".toList "X".toList "FORMULA_001 formula001".toList
        = "X X".toList
    ∧ substMarkerFirstOnly "FORMULA_001".toList "X".toList
        "FORMULA_001 formula001".toList = "X formula001".toList
    ∧ "X X".toList ≠ "X formula001".toList :=
  ⟨by decide, by decide, by decide⟩

/-- C1 (amended): the substitution loop tries the exact marker first and then
the five tolerant variants, replacing every variant that occurs in the current
HTML (not only the first).  In particular, when exactly one variant occurs in
the HTML and no variant occurs after its replacement, the result replaces
exactly that variant's occurrences and nothing else. -/
theorem c1_marker_substitution (marker latex html v : List Char)
    (hv : v ∈ markerVariants marker)
    (hocc : occursSub v html = true)
    (hbefore : ∀ w ∈ markerVariants marker, w ≠ v → occursSub w html = false)
    (hafter : ∀ w ∈ markerVariants marker,
        occursSub w (replaceAll v latex html) = false) :
    substMarker marker latex html = replaceAll v latex html :=
  foldl_substMarkerStep_single latex v (markerVariants marker) html hv hocc hbefore hafter

/-- C1 (witness): the amended theorem applied at a concrete input where only
the space variant `"formula 001"` of `"FORMULA_001"` occurs. -/
theorem c1_marker_substitution_witness :
    substMarker "FORMULA_001".toList "Z".toList "A formula 001 B".toList
      = replaceAll "formula 001".toList "Z".toList "A formula 001 B".toList :=
  c1_marker_substitution "FORMULA_001".toList "Z".toList "A formula 001 B".toList
    "formula 001".toList (by decide) (by decide) (by decide) (by decide)

/-- C9: the table HTML delivered by `ocr_table_html` contains no newline
character — `_strip_code_fences` deletes every `"\n"` from the response after
removing a leading fence line and a trailing triple backtick — and on a fenced
multi-line response the fence lines are removed and the rest is joined into a
single line. -/
theorem ocr_table_html_single_line :
    (∀ content : Option (List Char), '\n' ∉ ocrTableHtmlPost content)
    ∧ ocrTableHtmlPost (some "```html\n<tr>A B</tr>\n<tr>C</tr>\n```".toList)
        = "<tr>A B</tr><tr>C</tr>".toList := by
  constructor
  · intro content hmem
    have h1 := mem_pyStrip hmem
    rw [List.mem_filter] at h1
    exact absurd h1.2 (by decide)
  · decide

/-- C9 (witness): no newline survives, at a concrete response. -/
theorem ocr_table_html_single_line_witness :
    '\n' ∉ ocrTableHtmlPost (some "a\nb".toList) :=
  ocr_table_html_single_line.1 (some "a\nb".toList)

/-! ## The OCR retry loop (`extract_table_format`, lines 162–182)

The remote OCR backend is abstracted as an oracle `ocr : ℕ → List Char`
mapping the attempt number (1-based, as in `range(1, 4)`) to the HTML it
returns for this table's masked image. -/

/-- `[m for m in expected_markers if m not in html]`. -/
def missingMarkers (markers : List (List Char)) (html : List Char) : List (List Char) :=
  markers.filter (fun m => !(occursSub m html))

/-- The loop state: the current `html`, the `last_html` variable, the warnings
logged so far (attempt number, missing count, expected count — the three
numbers interpolated into the log message) and the number of OCR calls made. -/
structure RetrySt where
  html : List Char
  lastHtml : List Char
  warnings : List (ℕ × ℕ × ℕ)
  calls : ℕ
deriving DecidableEq

/-- One pass over the remaining attempt numbers of `for attempt in range(1, 4)`;
returning without a recursive call models `break`. -/
def retryGo (ocr : ℕ → List Char) (markers : List (List Char)) :
    List ℕ → RetrySt → RetrySt
  | [], st => st
  | a :: rest, st =>
    let html := ocr a
    let st1 : RetrySt := { st with html := html, calls := st.calls + 1 }
    if html = [] then
      retryGo ocr markers rest { st1 with lastHtml := html }
    else if markers = [] then st1
    else
      let missing := missingMarkers markers html
      if missing = [] then st1
      else
        retryGo ocr markers rest
          { st1 with lastHtml := html,
                     warnings := st1.warnings ++ [(a, missing.length, markers.length)] }

/-- The whole `for attempt in range(1, 4)` loop started on the initial state
(`html = ""`, `last_html = ""`). -/
def retryLoop (ocr : ℕ → List Char) (markers : List (List Char)) : RetrySt :=
  retryGo ocr markers [1, 2, 3] ⟨[], [], [], 0⟩

/-- Lines 179–182 after the loop: fall back to `last_html` when the final
`html` is empty, and skip the segment (`none`) when that is empty too. -/
def tableHtmlAfterRetries (ocr : ℕ → List Char) (markers : List (List Char)) :
    Option (List Char) :=
  let st := retryLoop ocr markers
  let html := if st.html = [] then st.lastHtml else st.html
  if html = [] then none else some html

/-- C2 (code evaluated at the failing input): the first attempt returns
non-empty HTML that misses the marker and the remaining two attempts return
empty HTML.  The claim (and §4.5 of the spec) says the last non-empty HTML —
the first attempt's — must be assigned, but the code skips the segment:
the `last_html = html` line inside the `if not html:` branch overwrites the
saved non-empty HTML with the empty result, so the final fallback
`html = last_html` yields the empty string. -/
theorem c2_retry_exhaustion_eval :
    tableHtmlAfterRetries
        (fun a => if a = 1 then "<table><tr><td>v</td></tr></table>".toList else [])
        ["FORMULA_001".toList] = none
    ∧ (fun a => if a = 1 then "<table><tr><td>v</td></tr></table>".toList
                else ([] : List Char)) 1 ≠ [] :=
  ⟨by decide, by decide⟩

lemma retryGo_calls_le (ocr : ℕ → List Char) (markers : List (List Char)) :
    ∀ (l : List ℕ) (st : RetrySt),
      (retryGo ocr markers l st).calls ≤ st.calls + l.length := by
  intro l
  induction l with
  | nil => intro st; simp [retryGo]
  | cons a rest ih =>
    intro st
    simp only [retryGo, List.length_cons]
    by_cases h1 : ocr a = []
    · simp only [h1, if_true]
      calc (retryGo ocr markers rest _).calls
          ≤ st.calls + 1 + rest.length := ih _
        _ ≤ st.calls + (rest.length + 1) := by omega
    · simp only [h1, if_false]
      by_cases h2 : markers = []
      · simp only [h2, if_true]; omega
      · simp only [h2, if_false]
        by_cases h3 : missingMarkers markers (ocr a) = []
        · simp only [h3, if_true]; omega
        · simp only [h3, if_false]
          calc (retryGo ocr markers rest _).calls
              ≤ st.calls + 1 + rest.length := ih _
            _ ≤ st.calls + (rest.length + 1) := by omega

/-- C3: the OCR call is made at most 3 times; the loop stops at the first
attempt when its non-empty result contains every expected marker (or there
are no expected markers); and in the scenario where the first two attempts
return non-empty HTML missing some marker and the third contains all of
them, exactly 3 calls are made, the third result is accepted, and a warning
naming the number of missing markers was logged on each of the two retries. -/
theorem retry_bound_and_acceptance (ocr : ℕ → List Char) (markers : List (List Char)) :
    (retryLoop ocr markers).calls ≤ 3
    ∧ (ocr 1 ≠ [] → (markers = [] ∨ missingMarkers markers (ocr 1) = []) →
        (retryLoop ocr markers).calls = 1 ∧ (retryLoop ocr markers).html = ocr 1)
    ∧ (markers ≠ [] →
       ocr 1 ≠ [] → missingMarkers markers (ocr 1) ≠ [] →
       ocr 2 ≠ [] → missingMarkers markers (ocr 2) ≠ [] →
       ocr 3 ≠ [] → missingMarkers markers (ocr 3) = [] →
        (retryLoop ocr markers).calls = 3
        ∧ (retryLoop ocr markers).html = ocr 3
        ∧ tableHtmlAfterRetries ocr markers = some (ocr 3)
        ∧ (retryLoop ocr markers).warnings =
            [(1, (missingMarkers markers (ocr 1)).length, markers.length),
             (2, (missingMarkers markers (ocr 2)).length, markers.length)]) := by
  refine ⟨?_, ?_, ?_⟩
  · exact le_trans (retryGo_calls_le ocr markers [1, 2, 3] ⟨[], [], [], 0⟩) (by simp)
  · intro h1 hm
    simp only [retryLoop, retryGo]
    rw [if_neg h1]
    rcases hm with hm | hm
    · rw [if_pos hm]; exact ⟨rfl, rfl⟩
    · by_cases hm2 : markers = []
      · rw [if_pos hm2]; exact ⟨rfl, rfl⟩
      · rw [if_neg hm2, if_pos hm]
        exact ⟨rfl, rfl⟩
  · intro hmne h1e hm1 h2e hm2 h3e hm3
    have hloop : retryLoop ocr markers =
        { html := ocr 3,
          lastHtml := ocr 2,
          warnings := [(1, (missingMarkers markers (ocr 1)).length, markers.length),
                       (2, (missingMarkers markers (ocr 2)).length, markers.length)],
          calls := 3 } := by
      simp only [retryLoop, retryGo]
      rw [if_neg h1e, if_neg hmne, if_neg hm1]
      rw [if_neg h2e, if_neg hmne, if_neg hm2]
      rw [if_neg h3e, if_neg hmne, if_pos hm3]
      rfl
    refine ⟨by rw [hloop], by rw [hloop], ?_, by rw [hloop]⟩
    unfold tableHtmlAfterRetries
    rw [hloop]
    simp [h3e]

/-- C3 (witness): the retry-bound theorem at a concrete backend that misses
the marker on the first two attempts and includes it on the third. -/
theorem retry_bound_and_acceptance_witness :
    (retryLoop (fun a => if a = 1 then "x".toList else if a = 2 then "y".toList
        else "m FORMULA_001 m".toList) ["FORMULA_001".toList]).calls = 3
    ∧ (retryLoop (fun a => if a = 1 then "x".toList else if a = 2 then "y".toList
        else "m FORMULA_001 m".toList) ["FORMULA_001".toList]).html =
      (fun a => if a = 1 then "x".toList else if a = 2 then "y".toList
        else "m FORMULA_001 m".toList) 3
    ∧ tableHtmlAfterRetries (fun a => if a = 1 then "x".toList else if a = 2 then "y".toList
        else "m FORMULA_001 m".toList) ["FORMULA_001".toList] =
      some ((fun a => if a = 1 then "x".toList else if a = 2 then "y".toList
        else "m FORMULA_001 m".toList) 3)
    ∧ (retryLoop (fun a => if a = 1 then "x".toList else if a = 2 then "y".toList
        else "m FORMULA_001 m".toList) ["FORMULA_001".toList]).warnings =
      [(1, (missingMarkers ["FORMULA_001".toList]
              ((fun a => if a = 1 then "x".toList else if a = 2 then "y".toList
                else "m FORMULA_001 m".toList) 1)).length, (["FORMULA_001".toList]).length),
       (2, (missingMarkers ["FORMULA_001".toList]
              ((fun a => if a = 1 then "x".toList else if a = 2 then "y".toList
                else "m FORMULA_001 m".toList) 2)).length, (["FORMULA_001".toList]).length)] :=
  (retry_bound_and_acceptance
      (fun a => if a = 1 then "x".toList else if a = 2 then "y".toList
        else "m FORMULA_001 m".toList) ["FORMULA_001".toList]).2.2
    (by decide) (by decide) (by decide) (by decide) (by decide) (by decide) (by decide)

/-! ## Data model: segments (`domain.PdfSegment`, `pdf_token_type_labels.TokenType`) -/

/-- The segment type labels used by the converter. -/
inductive TokenType where
  | TABLE
  | FORMULA
  | PICTURE
  | TITLE
  | SECTION_HEADER
  | TEXT
  | PAGE_FOOTER
  | PAGE_HEADER
  | LIST_ITEM
  | FOOTNOTE
  | CAPTION
deriving DecidableEq

/-- A bounding box in point space (72 dpi), as produced by layout analysis. -/
structure BBox where
  left : ℚ
  top : ℚ
  right : ℚ
  bottom : ℚ
deriving DecidableEq

/-- The slice of `PdfSegment` that `extract_table_format` reads and writes. -/
structure PdfSegment where
  page_number : ℕ
  bounding_box : BBox
  segment_type : TokenType
  text_content : Option (List Char)
deriving DecidableEq

/-- Default segment used with `List.getD`. -/
def dSeg : PdfSegment := ⟨0, ⟨0, 0, 0, 0⟩, TokenType.TEXT, none⟩

/-! ## Per-segment exception isolation (`extract_table_format`)

One table segment's whole processing body (crop, placeholder drawing, OCR
with retries, marker substitution) is abstracted as an oracle
`body : ℕ → Except Unit (Option (List Char))` from the index of the table
segment (among table segments, in order) to either an exception
(`.error`), a skip without assignment (`.ok none`, the empty-HTML path),
or an HTML assignment (`.ok (some html)`). -/

/-- What one loop iteration does to its table segment. -/
def applyOutcome (r : Except Unit (Option (List Char))) (s : PdfSegment) : PdfSegment :=
  match r with
  | .ok (some h) => { s with text_content := some h }
  | _ => s

/-- The remote-mode loop (lines 117–206): every iteration runs inside
`try: ... except Exception: continue`, so an `.error` outcome is caught and
the loop moves on to the next table segment. -/
def processTablesRemote (body : ℕ → Except Unit (Option (List Char))) :
    ℕ → List PdfSegment → List PdfSegment
  | _, [] => []
  | k, s :: rest =>
    if s.segment_type = TokenType.TABLE then
      applyOutcome (body k) s :: processTablesRemote body (k + 1) rest
    else
      s :: processTablesRemote body k rest

/-- The local-mode loop (lines 214–228): there is no `try`/`except`, so an
exception raised while processing one table segment propagates out of
`extract_table_format` and the remaining segments are never processed. -/
def processTablesLocal (body : ℕ → Except Unit (Option (List Char))) :
    ℕ → List PdfSegment → Except Unit (List PdfSegment)
  | _, [] => .ok []
  | k, s :: rest =>
    if s.segment_type = TokenType.TABLE then
      match body k with
      | .error e => .error e
      | .ok r =>
        match processTablesLocal body (k + 1) rest with
        | .error e => .error e
        | .ok rs => .ok (applyOutcome (.ok r) s :: rs)
    else
      match processTablesLocal body k rest with
      | .error e => .error e
      | .ok rs => .ok (s :: rs)

/-- Number of TABLE segments. -/
def countTables (segs : List PdfSegment) : ℕ :=
  (segs.filter (fun s => decide (s.segment_type = TokenType.TABLE))).length

lemma processTablesRemote_length (body : ℕ → Except Unit (Option (List Char))) :
    ∀ (segs : List PdfSegment) (k : ℕ),
      (processTablesRemote body k segs).length = segs.length := by
  intro segs
  induction segs with
  | nil => intro k; rfl
  | cons s rest ih =>
    intro k
    by_cases hs : s.segment_type = TokenType.TABLE
    · simp [processTablesRemote, hs, ih]
    · simp [processTablesRemote, hs, ih]

lemma countTables_cons (s : PdfSegment) (rest : List PdfSegment) :
    countTables (s :: rest) =
      (if s.segment_type = TokenType.TABLE then 1 else 0) + countTables rest := by
  by_cases hs : s.segment_type = TokenType.TABLE
  · simp [countTables, hs]; omega
  · simp [countTables, hs]

lemma processTablesRemote_getD (body : ℕ → Except Unit (Option (List Char))) :
    ∀ (segs : List PdfSegment) (k i : ℕ), i < segs.length →
      (processTablesRemote body k segs).getD i dSeg =
        (if (segs.getD i dSeg).segment_type = TokenType.TABLE
         then applyOutcome (body (k + countTables (segs.take i))) (segs.getD i dSeg)
         else segs.getD i dSeg) := by
  intro segs
  induction segs with
  | nil => intro k i h; simp at h
  | cons s rest ih =>
    intro k i h
    cases i with
    | zero =>
      by_cases hs : s.segment_type = TokenType.TABLE
      · simp [processTablesRemote, hs, countTables]
      · simp [processTablesRemote, hs, countTables]
    | succ n =>
      have hn : n < rest.length := by simpa using h
      by_cases hs : s.segment_type = TokenType.TABLE
      · simp only [processTablesRemote, hs, if_true, List.getD_cons_succ,
          List.take_succ_cons, countTables_cons]
        rw [ih (k + 1) n hn]
        have : k + (1 + countTables (rest.take n)) = k + 1 + countTables (rest.take n) := by
          omega
        rw [this]
      · simp only [processTablesRemote, hs, if_false, List.getD_cons_succ,
          List.take_succ_cons, countTables_cons]
        rw [ih k n hn]
        simp

/-- C4 (counterexample): with two table segments whose first body raises, the
local-mode loop propagates the exception (`.error`), aborting the processing
of the second table segment — so the claim's "in both remote and local OCR
modes no exception propagates" is false; the remote-mode loop on the same
input catches the error and still processes the second segment. -/
theorem c4_counterexample :
    processTablesLocal
        (fun k => if k = 0 then Except.error () else Except.ok (some "H".toList)) 0
        [⟨1, ⟨0, 0, 1, 1⟩, TokenType.TABLE, none⟩,
         ⟨1, ⟨0, 0, 2, 2⟩, TokenType.TABLE, none⟩]
      = Except.error ()
    ∧ processTablesRemote
        (fun k => if k = 0 then Except.error () else Except.ok (some "H".toList)) 0
        [⟨1, ⟨0, 0, 1, 1⟩, TokenType.TABLE, none⟩,
         ⟨1, ⟨0, 0, 2, 2⟩, TokenType.TABLE, none⟩]
      = [⟨1, ⟨0, 0, 1, 1⟩, TokenType.TABLE, none⟩,
         ⟨1, ⟨0, 0, 2, 2⟩, TokenType.TABLE, some "H".toList⟩] :=
  ⟨rfl, rfl⟩

/-- C4 (amended): in remote mode the isolation holds — each table segment is
processed with its own outcome independently of any other segment's failure:
an `.error` outcome is caught and leaves the segment unchanged (its
`text_content` unset), every later table segment is still processed with its
own body call, and non-table segments are untouched.  (In local mode the
exception propagates, as the counterexample shows.) -/
theorem c4_remote_isolation (body : ℕ → Except Unit (Option (List Char)))
    (segs : List PdfSegment) (i : ℕ) (hi : i < segs.length) :
    (processTablesRemote body 0 segs).length = segs.length
    ∧ (processTablesRemote body 0 segs).getD i dSeg =
        (if (segs.getD i dSeg).segment_type = TokenType.TABLE
         then applyOutcome (body (countTables (segs.take i))) (segs.getD i dSeg)
         else segs.getD i dSeg)
    ∧ applyOutcome (Except.error ()) (segs.getD i dSeg) = segs.getD i dSeg := by
  refine ⟨processTablesRemote_length body segs 0, ?_, rfl⟩
  have := processTablesRemote_getD body segs 0 i hi
  simpa using this

/-- C4 (witness): the amended theorem at a concrete two-table list whose
first body raises; the second table segment is still assigned. -/
theorem c4_remote_isolation_witness :
    (processTablesRemote
        (fun k => if k = 0 then Except.error () else Except.ok (some "H".toList)) 0
        [⟨1, ⟨0, 0, 1, 1⟩, TokenType.TABLE, none⟩,
         ⟨1, ⟨0, 0, 2, 2⟩, TokenType.TABLE, none⟩]).length =
      ([⟨1, ⟨0, 0, 1, 1⟩, TokenType.TABLE, none⟩,
        ⟨1, ⟨0, 0, 2, 2⟩, TokenType.TABLE, none⟩] : List PdfSegment).length :=
  (c4_remote_isolation
      (fun k => if k = 0 then Except.error () else Except.ok (some "H".toList))
      [⟨1, ⟨0, 0, 1, 1⟩, TokenType.TABLE, none⟩,
       ⟨1, ⟨0, 0, 2, 2⟩, TokenType.TABLE, none⟩] 1 (by decide)).1

/-! ## Formula binding for a table (`_bbox_center_inside`, lines 130–146) -/

/-- `_bbox_center_inside`: the center of `inner` lies within `outer`,
edges inclusive (`ol <= cx <= or_ and ot <= cy <= ob`). -/
def bboxCenterInside (inner outer : BBox) : Bool :=
  decide (outer.left ≤ (inner.left + inner.right) / 2
    ∧ (inner.left + inner.right) / 2 ≤ outer.right
    ∧ outer.top ≤ (inner.top + inner.bottom) / 2
    ∧ (inner.top + inner.bottom) / 2 ≤ outer.bottom)

/-- The comparison behind `in_table_formulas.sort(key=lambda s:
(s.bounding_box.top, s.bounding_box.left))`: lexicographic `≤` on the key. -/
def sortKeyLe (a b : PdfSegment) : Bool :=
  decide (a.bounding_box.top < b.bounding_box.top
    ∨ (a.bounding_box.top = b.bounding_box.top
       ∧ a.bounding_box.left ≤ b.bounding_box.left))

/-- Lines 132–141: the formulas on the table's page whose bounding-box
center lies inside the table's box, sorted by `(top, left)`.  Python's
`list.sort` is a stable ascending sort by the key, which is exactly
`List.mergeSort` with the lexicographic `≤` on the key. -/
def inTableFormulas (table : PdfSegment) (formulas : List PdfSegment) : List PdfSegment :=
  (formulas.filter (fun f =>
      decide (f.page_number = table.page_number)
        && bboxCenterInside f.bounding_box table.bounding_box)).mergeSort sortKeyLe

/-- Fuel-driven decimal rendering of a natural number (most significant
digit first); the fuel bounds the number of divisions by 10. -/
def natToDecAux (n r : List Char) : ℕ → ℕ → List Char → List Char
  | 0, _, acc => acc
  | _ + 1, 0, acc => acc
  | fuel + 1, m, acc => natToDecAux n r fuel (m / 10) (Char.ofNat (48 + m % 10) :: acc)

/-- Decimal rendering of a natural number. -/
def natToDec (m : ℕ) : List Char :=
  if m = 0 then ['0'] else natToDecAux [] [] (m + 1) m []

/-- Python `f"{idx:03d}"` for a non-negative index: pad with leading zeros
to a minimum width of 3. -/
def pad3 (m : ℕ) : List Char :=
  List.replicate (3 - (natToDec m).length) '0' ++ natToDec m

/-- Line 145: `f"FORMULA_{idx:03d}"`. -/
def fmtMarker (idx : ℕ) : List Char := "FORMULA_".toList ++ pad3 idx

/-- Lines 143–146: the marker→formula binding, enumerating the sorted
contained formulas from index 1. -/
def markerBindings (table : PdfSegment) (formulas : List PdfSegment) :
    List (List Char × PdfSegment) :=
  ((inTableFormulas table formulas).enum).map (fun p => (fmtMarker (p.1 + 1), p.2))

lemma sortKeyLe_trans (a b c : PdfSegment) :
    sortKeyLe a b = true → sortKeyLe b c = true → sortKeyLe a c = true := by
  simp only [sortKeyLe, decide_eq_true_eq]
  rintro (h1 | ⟨h1, h1l⟩) (h2 | ⟨h2, h2l⟩)
  · exact Or.inl (lt_trans h1 h2)
  · exact Or.inl (h2 ▸ h1)
  · exact Or.inl (h1 ▸ h2)
  · exact Or.inr ⟨h1.trans h2, h1l.trans h2l⟩

lemma sortKeyLe_total (a b : PdfSegment) :
    (sortKeyLe a b || sortKeyLe b a) = true := by
  simp only [sortKeyLe, Bool.or_eq_true, decide_eq_true_eq]
  rcases lt_trichotomy a.bounding_box.top b.bounding_box.top with h | h | h
  · exact Or.inl (Or.inl h)
  · rcases le_total a.bounding_box.left b.bounding_box.left with hl | hl
    · exact Or.inl (Or.inr ⟨h, hl⟩)
    · exact Or.inr (Or.inr ⟨h.symm, hl⟩)
  · exact Or.inr (Or.inl h)

/-- C5: a formula is bound to a table exactly when it lies on the same page
and its bounding-box center is inside the table's box with inclusive edges;
the bound formulas are pairwise ordered by `(top, left)` ascending (equal
tops ordered by `left`); and the binding assigns the sequential markers
`FORMULA_001`, `FORMULA_002`, … (1-based, zero-padded to 3 digits). -/
theorem formula_binding_spec (table : PdfSegment) (formulas : List PdfSegment) :
    (∀ f, f ∈ inTableFormulas table formulas ↔
        f ∈ formulas ∧ f.page_number = table.page_number
        ∧ table.bounding_box.left ≤ (f.bounding_box.left + f.bounding_box.right) / 2
        ∧ (f.bounding_box.left + f.bounding_box.right) / 2 ≤ table.bounding_box.right
        ∧ table.bounding_box.top ≤ (f.bounding_box.top + f.bounding_box.bottom) / 2
        ∧ (f.bounding_box.top + f.bounding_box.bottom) / 2 ≤ table.bounding_box.bottom)
    ∧ (inTableFormulas table formulas).Pairwise (fun a b =>
        a.bounding_box.top < b.bounding_box.top
        ∨ (a.bounding_box.top = b.bounding_box.top
           ∧ a.bounding_box.left ≤ b.bounding_box.left))
    ∧ (markerBindings table formulas).map Prod.fst =
        (List.range (inTableFormulas table formulas).length).map (fun k => fmtMarker (k + 1))
    ∧ fmtMarker 1 = "FORMULA_001".toList
    ∧ fmtMarker 2 = "FORMULA_002".toList
    ∧ fmtMarker 10 = "FORMULA_010".toList
    ∧ fmtMarker 123 = "FORMULA_123".toList := by
  refine ⟨?_, ?_, ?_, by decide, by decide, by decide, by decide⟩
  · intro f
    unfold inTableFormulas
    rw [List.mem_mergeSort, List.mem_filter]
    simp only [Bool.and_eq_true, decide_eq_true_eq, bboxCenterInside]
  · have hp := List.sorted_mergeSort sortKeyLe_trans sortKeyLe_total
      (formulas.filter (fun f =>
        decide (f.page_number = table.page_number)
          && bboxCenterInside f.bounding_box table.bounding_box))
    unfold inTableFormulas
    refine hp.imp ?_
    intro a b hab
    simpa only [sortKeyLe, decide_eq_true_eq] using hab
  · unfold markerBindings
    rw [← List.enum_map_fst (inTableFormulas table formulas), List.map_map, List.map_map]
    rfl

/-- C5 (witness): the marker format conjunct at a concrete table and
formula list. -/
theorem formula_binding_spec_witness :
    fmtMarker 1 = "FORMULA_001".toList :=
  (formula_binding_spec dSeg []).2.2.2.1

/-! ## Placeholder geometry (`_draw_formula_placeholder`, lines 52–74) -/

/-- The clamped crop-local pixel box computed by `_draw_formula_placeholder`. -/
structure ClampedBox where
  l : ℤ
  t : ℤ
  r : ℤ
  b : ℤ
deriving DecidableEq

/-- `pad = max(2, int(min(fr_px - fl_px, fb_px - ft_px) * 0.05))`
(the float `0.05` is the exact rational `1/20`). -/
def clampPad (dw dh : ℤ) : ℤ := max 2 (pyInt (((min dw dh : ℤ) : ℚ) / 20))

/-- Lines 52–72: convert the formula box to crop-local pixels, expand by the
padding, and clamp the left/top edges into `[0, w-1]`/`[0, h-1]` and the
right/bottom edges into `[0, w]`/`[0, h]`. -/
def clampFormulaBox (ox oy : ℤ) (fl ft fr fb : ℚ) (dpi w h : ℕ) : ClampedBox :=
  let flp := toPixels fl dpi - ox
  let ftp := toPixels ft dpi - oy
  let frp := toPixels fr dpi - ox
  let fbp := toPixels fb dpi - oy
  let pad := clampPad (frp - flp) (fbp - ftp)
  ⟨max 0 (min ((w : ℤ) - 1) (flp - pad)),
   max 0 (min ((h : ℤ) - 1) (ftp - pad)),
   max 0 (min (w : ℤ) (frp + pad)),
   max 0 (min (h : ℤ) (fbp + pad))⟩

/-- Lines 73–74: `if fr_px <= fl_px + 1 or fb_px <= ft_px + 1: return` —
the geometry part of `_draw_formula_placeholder`: `none` means the function
returns without drawing; `some` is the clamped box that gets painted. -/
def drawFormulaPlaceholderGeom (ox oy : ℤ) (fl ft fr fb : ℚ) (dpi w h : ℕ) :
    Option ClampedBox :=
  let c := clampFormulaBox ox oy fl ft fr fb dpi w h
  if c.r ≤ c.l + 1 ∨ c.b ≤ c.t + 1 then none else some c

/-- C6: the padded box is clamped so that all four edges land inside
`[0, w] × [0, h]`; the renderer skips drawing (returns `none`, raising
nothing) exactly when the clamped box has width ≤ 1 px or height ≤ 1 px;
and otherwise it draws precisely the clamped box. -/
theorem placeholder_clamp_and_skip (ox oy : ℤ) (fl ft fr fb : ℚ) (dpi w h : ℕ) :
    (0 ≤ (clampFormulaBox ox oy fl ft fr fb dpi w h).l
     ∧ (clampFormulaBox ox oy fl ft fr fb dpi w h).l ≤ (w : ℤ)
     ∧ 0 ≤ (clampFormulaBox ox oy fl ft fr fb dpi w h).t
     ∧ (clampFormulaBox ox oy fl ft fr fb dpi w h).t ≤ (h : ℤ)
     ∧ 0 ≤ (clampFormulaBox ox oy fl ft fr fb dpi w h).r
     ∧ (clampFormulaBox ox oy fl ft fr fb dpi w h).r ≤ (w : ℤ)
     ∧ 0 ≤ (clampFormulaBox ox oy fl ft fr fb dpi w h).b
     ∧ (clampFormulaBox ox oy fl ft fr fb dpi w h).b ≤ (h : ℤ))
    ∧ (drawFormulaPlaceholderGeom ox oy fl ft fr fb dpi w h = none ↔
        ((clampFormulaBox ox oy fl ft fr fb dpi w h).r
            - (clampFormulaBox ox oy fl ft fr fb dpi w h).l ≤ 1
         ∨ (clampFormulaBox ox oy fl ft fr fb dpi w h).b
            - (clampFormulaBox ox oy fl ft fr fb dpi w h).t ≤ 1))
    ∧ (drawFormulaPlaceholderGeom ox oy fl ft fr fb dpi w h = none
       ∨ drawFormulaPlaceholderGeom ox oy fl ft fr fb dpi w h =
           some (clampFormulaBox ox oy fl ft fr fb dpi w h)) := by
  refine ⟨?_, ?_, ?_⟩
  · refine ⟨le_max_left 0 _, ?_, le_max_left 0 _, ?_, le_max_left 0 _, ?_,
      le_max_left 0 _, ?_⟩
    · exact max_le (Int.ofNat_nonneg w)
        (le_trans (min_le_left _ _) (by omega))
    · exact max_le (Int.ofNat_nonneg h)
        (le_trans (min_le_left _ _) (by omega))
    · exact max_le (Int.ofNat_nonneg w) (min_le_left _ _)
    · exact max_le (Int.ofNat_nonneg h) (min_le_left _ _)
  · unfold drawFormulaPlaceholderGeom
    by_cases hcc : (clampFormulaBox ox oy fl ft fr fb dpi w h).r ≤
        (clampFormulaBox ox oy fl ft fr fb dpi w h).l + 1
      ∨ (clampFormulaBox ox oy fl ft fr fb dpi w h).b ≤
        (clampFormulaBox ox oy fl ft fr fb dpi w h).t + 1
    · rw [if_pos hcc]
      constructor
      · intro _
        rcases hcc with hcc | hcc
        · left; omega
        · right; omega
      · intro _; rfl
    · rw [if_neg hcc]
      push_neg at hcc
      obtain ⟨h1, h2⟩ := hcc
      constructor
      · intro hfalse; exact absurd hfalse (Option.some_ne_none _)
      · rintro (hle | hle) <;> (exfalso; omega)
  · unfold drawFormulaPlaceholderGeom
    by_cases hcc : (clampFormulaBox ox oy fl ft fr fb dpi w h).r ≤
        (clampFormulaBox ox oy fl ft fr fb dpi w h).l + 1
      ∨ (clampFormulaBox ox oy fl ft fr fb dpi w h).b ≤
        (clampFormulaBox ox oy fl ft fr fb dpi w h).t + 1
    · exact Or.inl (if_pos hcc)
    · exact Or.inr (if_neg hcc)

/-- C6 (witness): the clamping bounds at a concrete formula box, crop
origin, dpi, and crop size. -/
theorem placeholder_clamp_and_skip_witness :
    0 ≤ (clampFormulaBox 0 0 0 0 10 10 72 100 50).l
    ∧ (clampFormulaBox 0 0 0 0 10 10 72 100 50).l ≤ ((100 : ℕ) : ℤ)
    ∧ 0 ≤ (clampFormulaBox 0 0 0 0 10 10 72 100 50).t
    ∧ (clampFormulaBox 0 0 0 0 10 10 72 100 50).t ≤ ((50 : ℕ) : ℤ)
    ∧ 0 ≤ (clampFormulaBox 0 0 0 0 10 10 72 100 50).r
    ∧ (clampFormulaBox 0 0 0 0 10 10 72 100 50).r ≤ ((100 : ℕ) : ℤ)
    ∧ 0 ≤ (clampFormulaBox 0 0 0 0 10 10 72 100 50).b
    ∧ (clampFormulaBox 0 0 0 0 10 10 72 100 50).b ≤ ((50 : ℕ) : ℤ) :=
  (placeholder_clamp_and_skip 0 0 0 0 10 10 72 100 50).1

/-- C7: each bounding-box edge is converted to pixels independently as
`floor(value_in_points * dpi / 72)` for non-negative values, and the point
box `(72, 72, 144, 144)` at dpi 144 maps to the pixel box
`(144, 144, 288, 288)`. -/
theorem to_pixels_floor :
    (∀ v : ℚ, 0 ≤ v → ∀ dpi : ℕ, toPixels v dpi = ⌊v * (dpi : ℚ) / 72⌋)
    ∧ toPixels 72 144 = 144
    ∧ toPixels 144 144 = 288 := by
  refine ⟨?_, ?_, ?_⟩
  · intro v hv dpi
    exact pyInt_eq_floor (by positivity)
  · have h1 : (72 : ℚ) * ((144 : ℕ) : ℚ) / 72 = ((144 : ℤ) : ℚ) := by
      push_cast; norm_num
    unfold toPixels
    rw [h1, pyInt_intCast]
  · have h1 : (144 : ℚ) * ((144 : ℕ) : ℚ) / 72 = ((288 : ℤ) : ℚ) := by
      push_cast; norm_num
    unfold toPixels
    rw [h1, pyInt_intCast]

/-- C7 (witness): the floor characterization applied at `v = 72`,
`dpi = 144`. -/
theorem to_pixels_floor_witness :
    toPixels 72 144 = ⌊(72 : ℚ) * ((144 : ℕ) : ℚ) / 72⌋ :=
  to_pixels_floor.1 72 (by decide) 144

/-! ## PIL images as an explicit store (`extract_table_format`, lines 119–158)

PIL images are mutable objects; the embedding makes the object graph
explicit: a store (`List Img`) of image values addressed by their index.
`Image.crop` returns a fresh image (a new store entry), `.copy()` another,
and `ImageDraw` mutates the addressed entry in place (`writeRef`).
`pdf_images.pdf_images` is a list of references into the store. -/

/-- An image value: size and pixel contents. -/
structure Img where
  w : ℕ
  h : ℕ
  pix : ℕ → ℕ → ℕ

/-- Image used for out-of-range reads. -/
def blankImg : Img := ⟨0, 0, fun _ _ => 0⟩

/-- Dereference an image. -/
def readRef (st : List Img) (r : ℕ) : Img := st.getD r blankImg

/-- In-place mutation of the image addressed by `r`. -/
def writeRef (st : List Img) (r : ℕ) (i : Img) : List Img := st.set r i

/-- `page_image.crop((l, t, r, b))`: a fresh image of size
`(r - l, b - t)` whose pixel `(x, y)` reads the source at `(x + l, y + t)`. -/
def cropImg (img : Img) (l t r b : ℤ) : Img :=
  ⟨(r - l).toNat, (b - t).toNat, fun x y => img.pix (x + l.toNat) (y + t.toNat)⟩

/-- The pixels painted inside the clamped box (white flood with the black
frame and marker glyphs on top).  The exact PIL glyph rasterization is not
part of the embedding; no claim depends on the painted values, only on the
footprint being the clamped box. -/
def placeholderPix (marker : List Char) (x y : ℕ) : ℕ :=
  if (x + y + marker.length) % 2 = 0 then 255 else 0

/-- Painting the placeholder onto an image value: only pixels inside the
clamped box change. -/
def drawPlaceholderImg (img : Img) (c : ClampedBox) (marker : List Char) : Img :=
  ⟨img.w, img.h, fun x y =>
    if c.l ≤ (x : ℤ) ∧ (x : ℤ) ≤ c.r ∧ c.t ≤ (y : ℤ) ∧ (y : ℤ) ≤ c.b
    then placeholderPix marker x y
    else img.pix x y⟩

/-- `_draw_formula_placeholder` acting on the store: compute the clamped
box; on the degenerate case return without touching the store, otherwise
mutate the image addressed by `r` in place. -/
def drawPlaceholderOnRef (st : List Img) (r : ℕ) (ox oy : ℤ) (fb : BBox)
    (dpi : ℕ) (marker : List Char) : List Img :=
  match drawFormulaPlaceholderGeom ox oy fb.left fb.top fb.right fb.bottom dpi
      (readRef st r).w (readRef st r).h with
  | none => st
  | some c => writeRef st r (drawPlaceholderImg (readRef st r) c marker)

/-- Lines 119–158 for one table segment: crop the page raster (fresh store
entry), `.copy()` it (another fresh entry), then draw one placeholder per
contained formula onto the copy.  Returns the new store and the reference
to the private masked copy handed to OCR. -/
def processOneTableImages (st : List Img) (refs : List ℕ) (dpi : ℕ)
    (t : PdfSegment) (formulas : List PdfSegment) : List Img × ℕ :=
  let pageRef := refs.getD (t.page_number - 1) 0
  let page := readRef st pageRef
  let lpx := toPixels t.bounding_box.left dpi
  let tpx := toPixels t.bounding_box.top dpi
  let rpx := toPixels t.bounding_box.right dpi
  let bpx := toPixels t.bounding_box.bottom dpi
  let st1 := st ++ [cropImg page lpx tpx rpx bpx]
  let rCrop := st.length
  let st2 := st1 ++ [readRef st1 rCrop]
  let rCopy := st1.length
  let stF := (inTableFormulas t formulas).enum.foldl
      (fun acc p =>
        drawPlaceholderOnRef acc rCopy lpx tpx p.2.bounding_box dpi (fmtMarker (p.1 + 1)))
      st2
  (stF, rCopy)

/-- The image side of the remote-mode loop over all table segments. -/
def extractTablesImages (st : List Img) (refs : List ℕ) (dpi : ℕ)
    (tables formulas : List PdfSegment) : List Img :=
  tables.foldl (fun acc t => (processOneTableImages acc refs dpi t formulas).1) st

/-- The image side of `extract_table_format` in remote mode: tables and
formulas are the TABLE/FORMULA segments of the prediction. -/
def extractTableFormatImages (st : List Img) (refs : List ℕ) (dpi : ℕ)
    (predicted : List PdfSegment) : List Img :=
  extractTablesImages st refs dpi
    (predicted.filter (fun s => decide (s.segment_type = TokenType.TABLE)))
    (predicted.filter (fun s => decide (s.segment_type = TokenType.FORMULA)))

lemma readRef_writeRef_ne (st : List Img) (r r' : ℕ) (i : Img) (h : r' ≠ r) :
    readRef (writeRef st r' i) r = readRef st r := by
  unfold readRef writeRef
  rw [List.getD_eq_getElem?_getD, List.getD_eq_getElem?_getD, List.getElem?_set_ne h]

lemma readRef_append (st l : List Img) (r : ℕ) (h : r < st.length) :
    readRef (st ++ l) r = readRef st r :=
  List.getD_append st l blankImg r h

lemma drawPlaceholderOnRef_length (st : List Img) (r : ℕ) (ox oy : ℤ) (fb : BBox)
    (dpi : ℕ) (marker : List Char) :
    (drawPlaceholderOnRef st r ox oy fb dpi marker).length = st.length := by
  unfold drawPlaceholderOnRef
  cases hm : drawFormulaPlaceholderGeom ox oy fb.left fb.top fb.right fb.bottom dpi
      (readRef st r).w (readRef st r).h with
  | none => rfl
  | some c => simp [writeRef]

lemma readRef_drawPlaceholderOnRef_ne (st : List Img) (r r' : ℕ) (ox oy : ℤ)
    (fb : BBox) (dpi : ℕ) (marker : List Char) (h : r' ≠ r) :
    readRef (drawPlaceholderOnRef st r ox oy fb dpi marker) r' = readRef st r' := by
  unfold drawPlaceholderOnRef
  cases hm : drawFormulaPlaceholderGeom ox oy fb.left fb.top fb.right fb.bottom dpi
      (readRef st r).w (readRef st r).h with
  | none => rfl
  | some c => exact readRef_writeRef_ne st r' r _ h.symm

lemma foldl_draw_preserves (rc : ℕ) (dpi : ℕ) (ox oy : ℤ) :
    ∀ (ps : List (ℕ × PdfSegment)) (st : List Img),
      ((ps.foldl (fun acc p =>
          drawPlaceholderOnRef acc rc ox oy p.2.bounding_box dpi (fmtMarker (p.1 + 1)))
          st).length = st.length)
      ∧ (∀ r, r ≠ rc →
          readRef (ps.foldl (fun acc p =>
            drawPlaceholderOnRef acc rc ox oy p.2.bounding_box dpi (fmtMarker (p.1 + 1)))
            st) r = readRef st r) := by
  intro ps
  induction ps with
  | nil => intro st; exact ⟨rfl, fun r _ => rfl⟩
  | cons p rest ih =>
    intro st
    constructor
    · rw [List.foldl_cons, (ih _).1, drawPlaceholderOnRef_length]
    · intro r hr
      rw [List.foldl_cons, (ih _).2 r hr, readRef_drawPlaceholderOnRef_ne _ _ _ _ _ _ _ _ hr]

lemma processOneTable_preserves (refs : List ℕ) (dpi : ℕ) (t : PdfSegment)
    (formulas : List PdfSegment) (st : List Img) (r : ℕ) (h : r < st.length) :
    readRef ((processOneTableImages st refs dpi t formulas).1) r = readRef st r
    ∧ st.length ≤ ((processOneTableImages st refs dpi t formulas).1).length := by
  unfold processOneTableImages
  simp only
  constructor
  · rw [(foldl_draw_preserves _ _ _ _ _ _).2 r (by simp; omega)]
    rw [readRef_append _ _ _ (by simp; omega), readRef_append _ _ _ h]
  · rw [(foldl_draw_preserves _ _ _ _ _ _).1]
    simp

lemma extractTablesImages_preserves :
    ∀ (tables : List PdfSegment) (st : List Img) (refs : List ℕ) (dpi : ℕ)
      (formulas : List PdfSegment) (r : ℕ), r < st.length →
      readRef (extractTablesImages st refs dpi tables formulas) r = readRef st r := by
  intro tables
  induction tables with
  | nil => intro st refs dpi formulas r _; rfl
  | cons t rest ih =>
    intro st refs dpi formulas r h
    have hp := processOneTable_preserves refs dpi t formulas st r h
    unfold extractTablesImages
    rw [List.foldl_cons]
    have ihr := ih ((processOneTableImages st refs dpi t formulas).1) refs dpi formulas r
      (lt_of_lt_of_le h hp.2)
    unfold extractTablesImages at ihr
    rw [ihr, hp.1]

lemma applyOutcome_fields (o : Except Unit (Option (List Char))) (s : PdfSegment) :
    (applyOutcome o s).page_number = s.page_number
    ∧ (applyOutcome o s).bounding_box = s.bounding_box
    ∧ (applyOutcome o s).segment_type = s.segment_type := by
  cases o with
  | error e => exact ⟨rfl, rfl, rfl⟩
  | ok v => cases v with
    | none => exact ⟨rfl, rfl, rfl⟩
    | some html => exact ⟨rfl, rfl, rfl⟩

/-- C8: in remote mode the placeholder drawing mutates only the private
crop-and-copy images allocated per table — every page raster (any image
that existed in the store before `extract_table_format` ran, in particular
every entry of `pdf_images.pdf_images`) is unchanged — and on the segment
side the loop never touches a segment's page number, bounding box or type,
nor the `text_content` of a non-table segment. -/
theorem extract_table_format_frame (st : List Img) (refs : List ℕ) (dpi : ℕ)
    (predicted : List PdfSegment) (r : ℕ) (h : r < st.length) :
    readRef (extractTableFormatImages st refs dpi predicted) r = readRef st r
    ∧ (∀ (body : ℕ → Except Unit (Option (List Char))) (segs : List PdfSegment) (i : ℕ),
        i < segs.length →
        ((processTablesRemote body 0 segs).getD i dSeg).page_number
            = (segs.getD i dSeg).page_number
        ∧ ((processTablesRemote body 0 segs).getD i dSeg).bounding_box
            = (segs.getD i dSeg).bounding_box
        ∧ ((processTablesRemote body 0 segs).getD i dSeg).segment_type
            = (segs.getD i dSeg).segment_type
        ∧ ((segs.getD i dSeg).segment_type ≠ TokenType.TABLE →
            ((processTablesRemote body 0 segs).getD i dSeg).text_content
              = (segs.getD i dSeg).text_content)) := by
  constructor
  · exact extractTablesImages_preserves _ st refs dpi _ r h
  · intro body segs i hi
    rw [processTablesRemote_getD body segs 0 i hi]
    by_cases hs : (segs.getD i dSeg).segment_type = TokenType.TABLE
    · rw [if_pos hs]
      have hf := applyOutcome_fields (body (0 + countTables (segs.take i))) (segs.getD i dSeg)
      exact ⟨hf.1, hf.2.1, hf.2.2, fun hns => absurd hs hns⟩
    · rw [if_neg hs]
      exact ⟨rfl, rfl, rfl, fun _ => rfl⟩

/-- C8 (witness): the store part at a concrete one-page store with one
table and one formula segment. -/
theorem extract_table_format_frame_witness :
    readRef
      (extractTableFormatImages [⟨200, 100, fun _ _ => 7⟩] [0] 72
        [⟨1, ⟨10, 10, 100, 60⟩, TokenType.TABLE, none⟩,
         ⟨1, ⟨20, 20, 40, 30⟩, TokenType.FORMULA, some "x".toList⟩]) 0
      = readRef [⟨200, 100, fun _ _ => 7⟩] 0 :=
  (extract_table_format_frame [⟨200, 100, fun _ _ => 7⟩] [0] 72
    [⟨1, ⟨10, 10, 100, 60⟩, TokenType.TABLE, none⟩,
     ⟨1, ⟨20, 20, 40, 30⟩, TokenType.FORMULA, some "x".toList⟩] 0 (by decide)).1

/-! ## Page-footer removal (`convert_to_markdown_use_case.py`, lines 55–60) -/

/-- The slice of `SegmentBox` built by `ConvertToMarkdownUseCase.execute`. -/
structure SegmentBox where
  left : ℚ
  top : ℚ
  width : ℚ
  height : ℚ
  page_number : ℕ
  page_width : ℚ
  page_height : ℚ
  text : List Char
  type : TokenType
deriving DecidableEq

/-- Line 56: `[s for s in segments if s.type != TokenType.PAGE_FOOTER]` —
the list handed to `markdown_conversion_service.convert_to_markdown`. -/
def dropPageFooters (segments : List SegmentBox) : List SegmentBox :=
  segments.filter (fun s => decide (s.type ≠ TokenType.PAGE_FOOTER))

/-- C10: the use case removes exactly the PAGE_FOOTER segments before
invoking the conversion service — no page footer reaches the service, a
segment is passed through iff it is in the input and is not a page footer,
and the surviving segments keep their original order (the passed list is a
sublist of the input). -/
theorem drop_page_footers_spec (segments : List SegmentBox) :
    (∀ s ∈ dropPageFooters segments, s.type ≠ TokenType.PAGE_FOOTER)
    ∧ (∀ s, s ∈ dropPageFooters segments ↔
        s ∈ segments ∧ s.type ≠ TokenType.PAGE_FOOTER)
    ∧ (dropPageFooters segments).Sublist segments := by
  refine ⟨?_, ?_, List.filter_sublist segments⟩
  · intro s hs
    have := (List.mem_filter.mp hs).2
    simpa using this
  · intro s
    unfold dropPageFooters
    rw [List.mem_filter]
    simp

/-- C10 (witness): the sublist conjunct at a concrete two-segment list. -/
theorem drop_page_footers_spec_witness :
    (dropPageFooters
      [⟨0, 0, 10, 10, 1, 100, 100, "f".toList, TokenType.PAGE_FOOTER⟩,
       ⟨0, 20, 10, 10, 1, 100, 100, "t".toList, TokenType.TEXT⟩]).Sublist
      [⟨0, 0, 10, 10, 1, 100, 100, "f".toList, TokenType.PAGE_FOOTER⟩,
       ⟨0, 20, 10, 10, 1, 100, 100, "t".toList, TokenType.TEXT⟩] :=
  (drop_page_footers_spec
    [⟨0, 0, 10, 10, 1, 100, 100, "f".toList, TokenType.PAGE_FOOTER⟩,
     ⟨0, 20, 10, 10, 1, 100, 100, "t".toList, TokenType.TEXT⟩]).2.2
